import Mathlib

/-!
Verification of the progress-tracking and gamification core of the
Child_Study-App backend: a shallow embedding of the Mongoose model methods
(`models/Progress.js`, `models/User.js`), the progress validator
(`utils/validators.js`), the weekly statistics helper
(`Controllers/userController.js`) and the user-scope achievement endpoint
(`Controllers/authController.js`), together with proofs of the specified
properties.  Numbers that are JavaScript `Number`s carrying integral or
small decimal values are modelled as rationals; timestamps (milliseconds)
as naturals; `Math.round` is round-half-up, `Math.floor` is the integer
floor.
-/

namespace ChildStudy

/-- JavaScript `Math.round`: rounds half away from zero for positive halves,
i.e. `Math.round x = ⌊x + 1/2⌋` for every finite `x`. -/
def jsRound (q : ℚ) : ℤ := ⌊q + 1/2⌋

/-- The `status` enum of `ProgressSchema`. -/
inductive Status
  | not_started
  | in_progress
  | completed
deriving DecidableEq

/-- The achievement `type` enum of `ProgressSchema.achievements`. -/
inductive AchType
  | completion
  | speed
  | understanding
  | streak
  | engagement
deriving DecidableEq

/-- One entry of `ProgressSchema.achievements`; `unlockedAt` defaults to the
insertion time. -/
structure Achievement where
  name : String
  type : AchType
  unlockedAt : ℕ
deriving DecidableEq

/-- One entry of `ProgressSchema.watchSessions`. -/
structure WatchSession where
  startTime : ℕ
  endTime : Option ℕ
  duration : Option ℤ
  startPosition : ℚ
  endPosition : ℚ
  completed : Bool
deriving DecidableEq

/-- The `childEngagement` sub-document (defaults 3/3/3). -/
structure Engagement where
  attentionLevel : ℚ
  enjoymentLevel : ℚ
  confidenceLevel : ℚ
deriving DecidableEq

/-- A `Progress` document.  `lessonDuration` stands for
`this.lesson && this.lesson.duration` on a populated record: `none` when the
lesson is unpopulated or its duration is the falsy `0`. -/
structure Progress where
  status : Status := .not_started
  watchTime : ℚ := 0
  completionPercentage : ℚ := 0
  isCompleted : Bool := false
  completedAt : Option ℕ := none
  startedAt : ℕ := 0
  lastWatchPosition : ℚ := 0
  lastWatchTimestamp : ℕ := 0
  watchSessions : List WatchSession := []
  rating : Option ℚ := none
  pointsEarned : ℚ := 0
  attempts : ℕ := 1
  bookmarked : Bool := false
  bookmarkedAt : Option ℕ := none
  timeSpent : ℚ := 0
  streakCount : ℕ := 0
  achievements : List Achievement := []
  childEngagement : Engagement := ⟨3, 3, 3⟩
  lessonDuration : Option ℚ := none
deriving DecidableEq

/-- A freshly created `Progress` document (all schema defaults). -/
def freshRecord : Progress := {}

/-- The value returned by `updateProgress`. -/
structure UpdateResult where
  completed : Bool
  firstTime : Bool
deriving DecidableEq

/-- `ProgressSchema.methods.updateProgress(watchTime, totalDuration,
currentPosition)` from `models/Progress.js`; `now` is `Date.now()`. -/
def updateProgress (r : Progress) (watchTime totalDuration currentPosition : ℚ)
    (now : ℕ) : Progress × UpdateResult :=
  let previousCompleted := r.isCompleted
  let r1 : Progress := { r with
    watchTime := max r.watchTime watchTime,
    lastWatchPosition := currentPosition,
    lastWatchTimestamp := now }
  let r2 : Progress := { r1 with
    completionPercentage :=
      if 0 < totalDuration then
        min 100 ((jsRound (r1.watchTime / totalDuration * 100) : ℚ))
      else r1.completionPercentage }
  if 80 ≤ r2.completionPercentage ∧ r2.isCompleted = false then
    ({ r2 with
        isCompleted := true,
        completedAt := some now,
        status := .completed,
        achievements := r2.achievements ++ [⟨"Lesson Completed", .completion, now⟩] },
      ⟨true, !previousCompleted⟩)
  else if 0 < r2.completionPercentage ∧ r2.status = .not_started then
    ({ r2 with status := .in_progress }, ⟨false, false⟩)
  else
    (r2, ⟨false, false⟩)

/-- `ProgressSchema.methods.startWatchSession(startPosition)`; returns the
updated record and the session it appended (the last element of
`watchSessions`). -/
def startWatchSession (r : Progress) (startPosition : ℚ) (now : ℕ) :
    Progress × WatchSession :=
  let session : WatchSession :=
    { startTime := now, endTime := none, duration := none,
      startPosition := startPosition, endPosition := startPosition,
      completed := false }
  let r1 : Progress := { r with
    watchSessions := r.watchSessions ++ [session],
    status := if r.status = .not_started then .in_progress else r.status,
    startedAt := if r.status = .not_started then now else r.startedAt }
  (r1, session)

/-- `ProgressSchema.methods.endWatchSession(endPosition, completed)`; acts on
the last element of `watchSessions` when it is open, otherwise leaves the
record alone.  Returns the record and the session the method returns. -/
def endWatchSession (r : Progress) (endPosition : ℚ) (completedFlag : Bool)
    (now : ℕ) : Progress × Option WatchSession :=
  match r.watchSessions.getLast? with
  | none => (r, none)
  | some s =>
    if s.endTime = none then
      let d : ℤ := jsRound (((now : ℚ) - (s.startTime : ℚ)) / 1000)
      let s1 : WatchSession := { s with
        endTime := some now, endPosition := endPosition,
        duration := some d, completed := completedFlag }
      ({ r with
          watchSessions := r.watchSessions.dropLast ++ [s1],
          timeSpent := r.timeSpent + (d : ℚ),
          lastWatchPosition := endPosition,
          lastWatchTimestamp := now }, some s1)
    else (r, some s)

/-- The lesson difficulty tiers of the points calculation. -/
inductive Difficulty
  | easy
  | medium
  | hard
deriving DecidableEq

/-- The `difficultyMultiplier` table of `calculatePoints`. -/
def difficultyMultiplier : Difficulty → ℚ
  | .easy => 1
  | .medium => 6 / 5
  | .hard => 3 / 2

/-- `ProgressSchema.methods.calculatePoints(basePoints, lessonDifficulty)`:
returns `0` unless completed, otherwise applies the difficulty multiplier and
the ordered bonuses, rounding once at the end. -/
def calculatePoints (r : Progress) (basePoints : ℚ)
    (lessonDifficulty : Difficulty) : ℤ :=
  if r.isCompleted = false then 0
  else
    let points := basePoints * difficultyMultiplier lessonDifficulty
    let points := if r.attempts = 1 then points + (⌊basePoints * (1/4)⌋ : ℚ) else points
    let points :=
      match r.lessonDuration with
      | some d =>
        if d ≠ 0 ∧ r.timeSpent < d * 2 then points + (⌊basePoints * (3/20)⌋ : ℚ)
        else points
      | none => points
    let points :=
      match r.rating with
      | some rating =>
        if 5 ≤ rating then points + 10
        else if 4 ≤ rating then points + 5
        else points
      | none => points
    let points :=
      if 4 ≤ r.childEngagement.enjoymentLevel ∧ 4 ≤ r.childEngagement.attentionLevel
      then points + 5 else points
    let points := if 7 ≤ r.streakCount then points + (⌊basePoints * (1/10)⌋ : ℚ) else points
    jsRound points

/-- `ProgressSchema.methods.addAchievement(name, type)`: `false` and no change
when the name is already present, otherwise appends `{name, type,
unlockedAt: now}` and returns `true`. -/
def addAchievement (r : Progress) (name : String) (type : AchType) (now : ℕ) :
    Progress × Bool :=
  match r.achievements.find? (fun a => a.name == name) with
  | some _ => (r, false)
  | none => ({ r with achievements := r.achievements ++ [⟨name, type, now⟩] }, true)

/-- One entry of `UserSchema.achievements` (`models/User.js`): `{name,
description, icon, earnedAt, points}`; `earnedAt` defaults to insertion
time. -/
structure UserAchievement where
  name : String
  description : String
  icon : String
  points : ℚ
  earnedAt : ℕ
deriving DecidableEq

/-- The gamification slice of a `User` document (`models/User.js`);
`lastActiveDate` in milliseconds. -/
structure User where
  totalPoints : ℚ := 0
  level : ℤ := 1
  streakDays : ℤ := 0
  lastActiveDate : ℕ := 0
  achievements : List UserAchievement := []
deriving DecidableEq

/-- `UserSchema.methods.updateLevel()`: recomputes
`Math.floor(totalPoints/100)+1` and adopts it only when it exceeds the
current level and is at most 10; returns whether a level-up occurred. -/
def updateLevel (u : User) : User × Bool :=
  let newLevel : ℤ := ⌊u.totalPoints / 100⌋ + 1
  if u.level < newLevel ∧ newLevel ≤ 10 then
    ({ u with level := newLevel }, true)
  else
    (u, false)

/-- `UserSchema.methods.addPoints(points)`: adds the points, then
`updateLevel`; returns the updated user and the level-up flag. -/
def addPoints (u : User) (points : ℚ) : User × Bool :=
  updateLevel { u with totalPoints := u.totalPoints + points }

/-- `UserSchema.methods.updateStreak()`: compares `today` to
`lastActiveDate` in whole elapsed days of the absolute millisecond
difference and adjusts `streakDays`. -/
def updateStreak (u : User) (today : ℕ) : User :=
  let diffDays : ℕ := ((today : ℤ) - (u.lastActiveDate : ℤ)).natAbs / 86400000
  if diffDays = 1 then { u with streakDays := u.streakDays + 1 }
  else if 1 < diffDays then { u with streakDays := 1 }
  else u

/-- The failure of the user-scope achievement endpoint
(`authController.addAchievement`): a 400 response with body
`{success: false, error: 'Achievement already earned'}`. -/
inductive AuthApiError
  | achievementAlreadyEarned
deriving DecidableEq

/-- `authController.addAchievement` (`Controllers/authController.js`): on a
duplicate name it responds with the 400 error; otherwise it pushes `{name,
description, icon, points}` (with `earnedAt` defaulting to `now`), applies
`addPoints(points)` and returns the updated user with the level-up flag. -/
def addUserAchievement (u : User) (name description icon : String)
    (points : ℚ) (now : ℕ) : Except AuthApiError (User × Bool) :=
  match u.achievements.find? (fun a => a.name == name) with
  | some _ => .error .achievementAlreadyEarned
  | none =>
    .ok (addPoints
      { u with achievements := u.achievements ++ [⟨name, description, icon, points, now⟩] }
      points)

/-- `validateProgress(watchTime, totalDuration)` from `utils/validators.js`:
throws `'Invalid progress data'` on negative watch time or non-positive
duration, and a second error when watch time exceeds 1.2 times the
duration. -/
def validateProgress (watchTime totalDuration : ℚ) : Except String Unit :=
  if watchTime < 0 ∨ totalDuration ≤ 0 then
    .error "Invalid progress data"
  else if totalDuration * (6/5) < watchTime then
    .error "Watch time cannot exceed video duration significantly"
  else
    .ok ()

/-- Modelled from the spec: the lesson-progress controller that exposes
`recordProgress(userId, lessonId, watchTime, totalDuration, position)` is not
among the sources here; per the spec it runs the `validateProgress` guard
(which is in `utils/validators.js`) before `updateProgress`, rejecting with
`InvalidInput` instead of updating the record. -/
def recordProgress (r : Progress) (watchTime totalDuration currentPosition : ℚ)
    (now : ℕ) : Except String (Progress × UpdateResult) :=
  match validateProgress watchTime totalDuration with
  | .error e => .error e
  | .ok _ => .ok (updateProgress r watchTime totalDuration currentPosition now)

/-- The slice of a `Progress` document read by the weekly aggregation of
`getWeeklyProgress` (`Controllers/userController.js`): the completion flag,
the calendar day (days since epoch, UTC) of `completedAt`, and the points. -/
structure CompletedSlice where
  isCompleted : Bool
  completedDay : ℤ
  pointsEarned : ℕ
deriving DecidableEq

/-- One element of the array `getWeeklyProgress` returns:
`{date, lessonsCompleted, pointsEarned}` with the date as a calendar day. -/
structure DailyEntry where
  date : ℤ
  lessonsCompleted : ℕ
  pointsEarned : ℕ
deriving DecidableEq

/-- The `$match` stage of the weekly aggregation: completed records whose
`completedAt` is within the trailing week (`oneWeekAgo = today − 7 days`). -/
def weeklyMatched (today : ℤ) (rs : List CompletedSlice) : List CompletedSlice :=
  rs.filter (fun r => r.isCompleted && decide (today - 7 ≤ r.completedDay))

/-- The `$group`-by-day stage read through
`dailyProgress.find(d => d._id === dateString)`: the group for calendar day
`d` when one exists (`$group` emits one row per distinct key, carrying the
count and the summed points), `none` when no matched record fell on `d`. -/
def dayGroup (rs : List CompletedSlice) (d : ℤ) : Option (ℕ × ℕ) :=
  let onDay := rs.filter (fun r => r.completedDay == d)
  if onDay.isEmpty then none
  else some (onDay.length, (onDay.map (fun r => r.pointsEarned)).sum)

/-- `getWeeklyProgress` (`Controllers/userController.js`): aggregates the
user's completed records of the trailing week by day, then fills the 7 days
`today − 6 … today` in order, zero-filling days without a group. -/
def getWeeklyProgress (today : ℤ) (rs : List CompletedSlice) : List DailyEntry :=
  let matched := weeklyMatched today rs
  (List.range 7).map (fun (j : ℕ) =>
    let d : ℤ := today - 6 + (j : ℤ)
    match dayGroup matched d with
    | some (c, p) => ⟨d, c, p⟩
    | none => ⟨d, 0, 0⟩)

/-- A sequence of `recordProgress` telemetry calls
`(watchTime, totalDuration, currentPosition, now)` applied to a record. -/
def applyRecordCalls (r : Progress) (calls : List (ℚ × ℚ × ℚ × ℕ)) : Progress :=
  calls.foldl (fun s c => (updateProgress s c.1 c.2.1 c.2.2.1 c.2.2.2).1) r

/-- The write operations a `Progress` record is subject to. -/
inductive Op
  | record (w d p : ℚ) (t : ℕ)
  | start (pos : ℚ) (t : ℕ)
  | finish (pos : ℚ) (c : Bool) (t : ℕ)
  | rate (v : ℚ)
  | bookmark (b : Bool) (t : ℕ)
  | engage (a e c : ℚ)
  | achieve (n : String) (ty : AchType) (t : ℕ)

/-- Applies one operation.  `record`, `start`, `finish` and `achieve` are the
`Progress.js` methods.  `rate`, `bookmark` and `engage` — modelled from the
spec: their editing endpoints are not among the sources here; per the spec
they write only their own field, with the `pre('save')` hook of
`Progress.js` stamping `bookmarkedAt` the first time `bookmarked` turns
true. -/
def applyOp (r : Progress) : Op → Progress
  | .record w d p t => (updateProgress r w d p t).1
  | .start pos t => (startWatchSession r pos t).1
  | .finish pos c t => (endWatchSession r pos c t).1
  | .rate v => { r with rating := some v }
  | .bookmark b t => { r with
      bookmarked := b,
      bookmarkedAt := if b = true ∧ r.bookmarkedAt = none then some t else r.bookmarkedAt }
  | .engage a e c => { r with childEngagement := ⟨a, e, c⟩ }
  | .achieve n ty t => (addAchievement r n ty t).1

/-- The points computation as the spec words it: base times the difficulty
multiplier, plus the floored first-attempt, speed and streak bonuses and the
rating and engagement bonuses, with one terminal round. -/
def pointsFormulaSpec (basePoints : ℚ) (difficulty : Difficulty) (attempts : ℕ)
    (timeSpent : ℚ) (lessonDuration : Option ℚ) (rating : Option ℚ)
    (engagement : Engagement) (streakCount : ℕ) : ℤ :=
  jsRound (basePoints * difficultyMultiplier difficulty
    + (if attempts = 1 then (⌊basePoints * (1/4)⌋ : ℚ) else 0)
    + (match lessonDuration with
       | some dur => if timeSpent < 2 * dur then (⌊basePoints * (3/20)⌋ : ℚ) else 0
       | none => 0)
    + (match rating with
       | some rt => if 5 ≤ rt then 10 else if 4 ≤ rt then 5 else 0
       | none => 0)
    + (if 4 ≤ engagement.enjoymentLevel ∧ 4 ≤ engagement.attentionLevel then 5 else 0)
    + (if 7 ≤ streakCount then (⌊basePoints * (1/10)⌋ : ℚ) else 0))

/-- The reference input of the points contract: a completed record with
`attempts = 1`, `timeSpent = 50`, lesson duration `60`, rating `5`,
engagement `5/5/5` and a 7-day streak. -/
def referenceRecord : Progress := { freshRecord with
  isCompleted := true,
  attempts := 1,
  timeSpent := 50,
  lessonDuration := some 60,
  rating := some 5,
  childEngagement := ⟨5, 5, 5⟩,
  streakCount := 7 }

/-- The record the scenario's first call produces: 79 seconds watched of 100,
hence 79 percent, in progress. -/
def rec79 : Progress := { freshRecord with
  status := .in_progress, watchTime := 79, completionPercentage := 79,
  lastWatchPosition := 79, lastWatchTimestamp := 1000 }

/-- The record the scenario's second call produces: completed at 80 percent
with the completion achievement. -/
def rec80 : Progress := { freshRecord with
  status := .completed, watchTime := 80, completionPercentage := 80,
  isCompleted := true, completedAt := some 2000,
  lastWatchPosition := 80, lastWatchTimestamp := 2000,
  achievements := [⟨"Lesson Completed", .completion, 2000⟩] }

lemma scenarioStep1 : updateProgress freshRecord 79 100 79 1000 = (rec79, ⟨false, false⟩) := by
  norm_num [updateProgress, freshRecord, jsRound, rec79]

lemma scenarioStep2 : updateProgress rec79 80 100 80 2000 = (rec80, ⟨true, true⟩) := by
  norm_num [updateProgress, rec79, rec80, freshRecord, jsRound]

/-- Claim C1: on a record with `isCompleted` false, a `updateProgress` call
that brings `completionPercentage` to at least 80 sets `isCompleted = true`,
`status = completed`, stamps `completedAt`, appends the achievement
"Lesson Completed" of type `completion`, and returns
`{completed: true, firstTime: true}`; any call that leaves the percentage
below 80 returns `{completed: false}`; and from `watchTime = 0` with
`totalDuration = 100`, the call `(79,100,79)` yields `in_progress` with
`isCompleted = false` while the following call `(80,100,80)` completes the
record first-time with the achievement present. -/
theorem updateProgress_completion_spec :
    (∀ (r : Progress) (w d p : ℚ) (t : ℕ), r.isCompleted = false →
      80 ≤ (updateProgress r w d p t).1.completionPercentage →
        (updateProgress r w d p t).1.isCompleted = true ∧
        (updateProgress r w d p t).1.status = Status.completed ∧
        (updateProgress r w d p t).1.completedAt = some t ∧
        (updateProgress r w d p t).1.achievements
          = r.achievements ++ [⟨"Lesson Completed", AchType.completion, t⟩] ∧
        (updateProgress r w d p t).2 = ⟨true, true⟩) ∧
    (∀ (r : Progress) (w d p : ℚ) (t : ℕ),
      (updateProgress r w d p t).1.completionPercentage < 80 →
      (updateProgress r w d p t).2.completed = false) ∧
    ((updateProgress freshRecord 79 100 79 1000).1.status = Status.in_progress ∧
     (updateProgress freshRecord 79 100 79 1000).1.isCompleted = false ∧
     (updateProgress freshRecord 79 100 79 1000).2 = ⟨false, false⟩ ∧
     (updateProgress (updateProgress freshRecord 79 100 79 1000).1 80 100 80 2000).1.isCompleted
       = true ∧
     (updateProgress (updateProgress freshRecord 79 100 79 1000).1 80 100 80 2000).2
       = ⟨true, true⟩ ∧
     (⟨"Lesson Completed", AchType.completion, 2000⟩ : Achievement) ∈
       (updateProgress (updateProgress freshRecord 79 100 79 1000).1 80 100 80 2000).1.achievements) := by
  refine ⟨?_, ?_, ?_⟩
  · intro r w d p t hc hp
    simp only [updateProgress] at hp ⊢
    split_ifs at hp ⊢ <;> simp_all
  · intro r w d p t hp
    simp only [updateProgress] at hp ⊢
    split_ifs at hp ⊢ <;> try simp_all
    all_goals rename_i hd hcond
    all_goals try (rcases hp with hp | hp)
    all_goals linarith [hcond.1]
  · refine ⟨?_, ?_, ?_, ?_, ?_, ?_⟩ <;>
      (simp only [scenarioStep1, scenarioStep2]) <;> simp [rec79, rec80, freshRecord]

/-- Witness for C1: the general completion part applied at the concrete
second call of the scenario. -/
theorem updateProgress_completion_spec_witness :
    (updateProgress freshRecord 79 100 79 1000).1.isCompleted = false ∧
    80 ≤ (updateProgress (updateProgress freshRecord 79 100 79 1000).1 80 100 80 2000).1.completionPercentage ∧
    (updateProgress (updateProgress freshRecord 79 100 79 1000).1 80 100 80 2000).1.completedAt
      = some 2000 := by
  have hfalse : (updateProgress freshRecord 79 100 79 1000).1.isCompleted = false := by
    simp only [scenarioStep1]
    simp [rec79, freshRecord]
  have hge : 80 ≤ (updateProgress (updateProgress freshRecord 79 100 79 1000).1
      80 100 80 2000).1.completionPercentage := by
    simp only [scenarioStep1, scenarioStep2]
    simp [rec80, freshRecord]
  exact ⟨hfalse, hge,
    (updateProgress_completion_spec.1 (updateProgress freshRecord 79 100 79 1000).1
      80 100 80 2000 hfalse hge).2.2.1⟩

/-- Claim C2: `calculatePoints` returns 0 on a non-completed record; on a
completed record (with the data-model invariant `0 ≤ timeSpent`) it equals
the spec's ordered formula — base times the difficulty multiplier, plus the
floored first-attempt, speed and streak bonuses and the rating and engagement
bonuses, rounded once at the end — and on the reference input
(`basePoints = 10`, medium, first attempt, `timeSpent = 50` of a 60-second
lesson, rating 5, engagement 5/5/5, streak 7) it returns exactly 31. -/
theorem calculatePoints_spec :
    (∀ (r : Progress) (bp : ℚ) (diff : Difficulty), r.isCompleted = false →
      calculatePoints r bp diff = 0) ∧
    (∀ (r : Progress) (bp : ℚ) (diff : Difficulty), r.isCompleted = true →
      0 ≤ r.timeSpent →
      calculatePoints r bp diff
        = pointsFormulaSpec bp diff r.attempts r.timeSpent r.lessonDuration
            r.rating r.childEngagement r.streakCount) ∧
    calculatePoints referenceRecord 10 Difficulty.medium = 31 := by
  refine ⟨?_, ?_, ?_⟩
  · intro r bp diff hc
    simp [calculatePoints, hc]
  · intro r bp diff hc ht
    have hspeed : ∀ dur : ℚ, (dur ≠ 0 ∧ r.timeSpent < dur * 2) ↔ r.timeSpent < 2 * dur := by
      intro dur
      constructor
      · rintro ⟨h0, h⟩
        linarith
      · intro h
        refine ⟨?_, by linarith⟩
        rintro rfl
        linarith
    simp only [calculatePoints, pointsFormulaSpec]
    rw [if_neg (by simp [hc])]
    cases hld : r.lessonDuration <;> cases hrt : r.rating <;>
      (try simp only [hspeed]) <;> split_ifs <;> (congr 1 <;> ring)
  · norm_num [calculatePoints, referenceRecord, freshRecord, jsRound,
      difficultyMultiplier]

/-- Witness for C2: the zero-on-incomplete part at a fresh record and the
formula part at the reference record. -/
theorem calculatePoints_spec_witness :
    calculatePoints freshRecord 10 Difficulty.easy = 0 ∧
    calculatePoints referenceRecord 10 Difficulty.medium
      = pointsFormulaSpec 10 Difficulty.medium referenceRecord.attempts
          referenceRecord.timeSpent referenceRecord.lessonDuration
          referenceRecord.rating referenceRecord.childEngagement
          referenceRecord.streakCount := by
  constructor
  · exact calculatePoints_spec.1 freshRecord 10 .easy (by simp [freshRecord])
  · exact calculatePoints_spec.2.1 referenceRecord 10 .medium
      (by norm_num [referenceRecord, freshRecord])
      (by norm_num [referenceRecord, freshRecord])

lemma jsRound_nonneg {q : ℚ} (h : 0 ≤ q) : 0 ≤ jsRound q := by
  simp only [jsRound]
  exact Int.floor_nonneg.mpr (by linarith)

lemma up_watchTime (r : Progress) (w d p : ℚ) (t : ℕ) :
    (updateProgress r w d p t).1.watchTime = max r.watchTime w := by
  simp only [updateProgress]
  split_ifs <;> rfl

lemma up_pct (r : Progress) (w d p : ℚ) (t : ℕ) :
    (updateProgress r w d p t).1.completionPercentage
      = if 0 < d then min 100 ((jsRound (max r.watchTime w / d * 100) : ℚ))
        else r.completionPercentage := by
  simp only [updateProgress]
  split_ifs <;> rfl

/-- The data-model bounds on a record: non-negative watch time and a
percentage within `[0, 100]`. -/
def progressInv (r : Progress) : Prop :=
  0 ≤ r.watchTime ∧ 0 ≤ r.completionPercentage ∧ r.completionPercentage ≤ 100

lemma progressInv_update (r : Progress) (w d p : ℚ) (t : ℕ)
    (h : progressInv r) : progressInv (updateProgress r w d p t).1 := by
  obtain ⟨h0, hl, hu⟩ := h
  have hm : 0 ≤ max r.watchTime w := le_trans h0 (le_max_left _ _)
  refine ⟨?_, ?_, ?_⟩
  · rw [up_watchTime]
    exact hm
  · rw [up_pct]
    split_ifs with hd
    · refine le_min (by norm_num) ?_
      have hz : (0:ℤ) ≤ jsRound (max r.watchTime w / d * 100) :=
        jsRound_nonneg (mul_nonneg (div_nonneg hm hd.le) (by norm_num))
      exact_mod_cast hz
    · exact hl
  · rw [up_pct]
    split_ifs with hd
    · exact min_le_left _ _
    · exact hu

lemma applyRecordCalls_cons (r : Progress) (c : ℚ × ℚ × ℚ × ℕ)
    (cs : List (ℚ × ℚ × ℚ × ℕ)) :
    applyRecordCalls r (c :: cs)
      = applyRecordCalls (updateProgress r c.1 c.2.1 c.2.2.1 c.2.2.2).1 cs := rfl

lemma applyRecordCalls_inv (calls : List (ℚ × ℚ × ℚ × ℕ)) (r : Progress)
    (h : progressInv r) : progressInv (applyRecordCalls r calls) := by
  induction calls generalizing r with
  | nil => exact h
  | cons c cs ih =>
    rw [applyRecordCalls_cons]
    exact ih _ (progressInv_update _ _ _ _ _ h)

lemma applyRecordCalls_watchTime_mono (calls : List (ℚ × ℚ × ℚ × ℕ))
    (r : Progress) : r.watchTime ≤ (applyRecordCalls r calls).watchTime := by
  induction calls generalizing r with
  | nil => exact le_refl _
  | cons c cs ih =>
    rw [applyRecordCalls_cons]
    refine le_trans ?_ (ih _)
    rw [up_watchTime]
    exact le_max_left _ _

/-- Claim C3: each `updateProgress` call sets `watchTime` to the maximum of
the previous value and the observed one, so over any sequence of calls
`watchTime` is non-decreasing; and starting within the data-model bounds,
`completionPercentage` stays in `[0, 100]` after any sequence of calls. -/
theorem updateProgress_monotone_bounded :
    (∀ (r : Progress) (w d p : ℚ) (t : ℕ),
      (updateProgress r w d p t).1.watchTime = max r.watchTime w) ∧
    (∀ (r : Progress) (calls : List (ℚ × ℚ × ℚ × ℕ)),
      r.watchTime ≤ (applyRecordCalls r calls).watchTime) ∧
    (∀ (r : Progress) (calls : List (ℚ × ℚ × ℚ × ℕ)),
      0 ≤ r.watchTime → 0 ≤ r.completionPercentage → r.completionPercentage ≤ 100 →
      0 ≤ (applyRecordCalls r calls).completionPercentage ∧
      (applyRecordCalls r calls).completionPercentage ≤ 100) := by
  refine ⟨up_watchTime, ?_, ?_⟩
  · intro r calls
    exact applyRecordCalls_watchTime_mono calls r
  · intro r calls h1 h2 h3
    exact (applyRecordCalls_inv calls r ⟨h1, h2, h3⟩).2

/-- Witness for C3: the bounds part applied at a fresh record and the
scenario's first call. -/
theorem updateProgress_monotone_bounded_witness :
    (0 ≤ freshRecord.watchTime ∧ 0 ≤ freshRecord.completionPercentage ∧
      freshRecord.completionPercentage ≤ 100) ∧
    (0 ≤ (applyRecordCalls freshRecord [(79, 100, 79, 1000)]).completionPercentage ∧
      (applyRecordCalls freshRecord [(79, 100, 79, 1000)]).completionPercentage ≤ 100) := by
  refine ⟨⟨by norm_num [freshRecord], by norm_num [freshRecord], by norm_num [freshRecord]⟩, ?_⟩
  exact updateProgress_monotone_bounded.2.2 freshRecord [(79, 100, 79, 1000)]
    (by norm_num [freshRecord]) (by norm_num [freshRecord]) (by norm_num [freshRecord])

lemma applyOp_isCompleted (r : Progress) (op : Op) (h : r.isCompleted = true) :
    (applyOp r op).isCompleted = true ∧ (applyOp r op).completedAt = r.completedAt := by
  cases op with
  | record w d p t =>
    simp only [applyOp, updateProgress]
    split_ifs <;> simp_all
  | start pos t => simp [applyOp, startWatchSession, h]
  | finish pos c t =>
    simp only [applyOp, endWatchSession]
    cases r.watchSessions.getLast? with
    | none => exact ⟨h, rfl⟩
    | some s =>
      dsimp only
      split_ifs <;> simp_all
  | rate v => simp [applyOp, h]
  | bookmark b t => simp [applyOp, h]
  | engage a e c => simp [applyOp, h]
  | achieve n ty t =>
    simp only [applyOp, addAchievement]
    cases r.achievements.find? (fun a => a.name == n) <;> simp_all

/-- Claim C4: once `isCompleted` is true, no sequence of further operations
(`recordProgress`, session start/end, rating, bookmark or engagement edits,
achievement adds) ever resets it, and `completedAt` never changes after it
was set at the completion transition. -/
theorem isCompleted_permanent :
    ∀ (r : Progress) (ops : List Op), r.isCompleted = true →
      (ops.foldl applyOp r).isCompleted = true ∧
      (ops.foldl applyOp r).completedAt = r.completedAt := by
  intro r ops h
  induction ops generalizing r with
  | nil => exact ⟨h, rfl⟩
  | cons op os ih =>
    rw [List.foldl_cons]
    obtain ⟨hstep1, hstep2⟩ := applyOp_isCompleted r op h
    obtain ⟨hf1, hf2⟩ := ih (applyOp r op) hstep1
    exact ⟨hf1, hf2.trans hstep2⟩

/-- Witness for C4: the completed scenario record survives a further
`recordProgress` call and a session start with `isCompleted` and
`completedAt` intact. -/
theorem isCompleted_permanent_witness :
    rec80.isCompleted = true ∧
    (([Op.record 90 100 90 3000, Op.start 0 4000].foldl applyOp rec80).isCompleted = true ∧
     ([Op.record 90 100 90 3000, Op.start 0 4000].foldl applyOp rec80).completedAt
       = rec80.completedAt) := by
  have h : rec80.isCompleted = true := by simp [rec80, freshRecord]
  exact ⟨h, isCompleted_permanent rec80 [Op.record 90 100 90 3000, Op.start 0 4000] h⟩

/-- Counterexample to C5 as stated: at user scope a duplicate achievement add
is not a silent `false` — `authController.addAchievement` answers with the
400 error response `'Achievement already earned'`. -/
theorem addUserAchievement_duplicate_is_error :
    addUserAchievement ⟨0, 1, 0, 0, [⟨"First Steps", "d", "i", 0, 0⟩]⟩
      "First Steps" "d" "i" 0 1 = .error .achievementAlreadyEarned := by
  simp [addUserAchievement]

/-- Claim C5 (amended): at record scope a duplicate name is a silent no-op
returning `false` and a fresh name appends `{name, type, unlockedAt: now}`
returning `true`; at user scope a duplicate name is rejected with the
`'Achievement already earned'` error (no mutation) while a fresh name appends
`{name, description, icon, points, earnedAt: now}` and applies
`addPoints(points)` — so in both scopes an insertion succeeds exactly once
per unique name, but the duplicate case is an error response at user scope
rather than a silent `false`. -/
theorem addAchievement_scopes :
    (∀ (r : Progress) (n : String) (ty : AchType) (t : ℕ),
      r.achievements.any (fun a => a.name == n) = true →
      addAchievement r n ty t = (r, false)) ∧
    (∀ (r : Progress) (n : String) (ty : AchType) (t : ℕ),
      r.achievements.any (fun a => a.name == n) = false →
      addAchievement r n ty t
        = ({ r with achievements := r.achievements ++ [⟨n, ty, t⟩] }, true)) ∧
    (∀ (u : User) (n ds ic : String) (p : ℚ) (t : ℕ),
      u.achievements.any (fun a => a.name == n) = true →
      addUserAchievement u n ds ic p t = .error .achievementAlreadyEarned) ∧
    (∀ (u : User) (n ds ic : String) (p : ℚ) (t : ℕ),
      u.achievements.any (fun a => a.name == n) = false →
      addUserAchievement u n ds ic p t
        = .ok (addPoints { u with achievements := u.achievements ++ [⟨n, ds, ic, p, t⟩] } p)) := by
  refine ⟨?_, ?_, ?_, ?_⟩
  · intro r n ty t hdup
    simp only [addAchievement]
    cases hf : r.achievements.find? (fun a => a.name == n) with
    | some a => rfl
    | none =>
      exfalso
      have h1 : (r.achievements.find? (fun a => a.name == n)).isSome := by
        rw [List.find?_isSome]
        simpa [List.any_eq_true] using hdup
      rw [hf] at h1
      simp at h1
  · intro r n ty t hfresh
    simp only [addAchievement]
    cases hf : r.achievements.find? (fun a => a.name == n) with
    | none => rfl
    | some a =>
      exfalso
      have hmem := List.mem_of_find?_eq_some hf
      have hp := List.find?_some hf
      rw [List.any_eq_false] at hfresh
      exact absurd hp (by simpa using hfresh a hmem)
  · intro u n ds ic p t hdup
    simp only [addUserAchievement]
    cases hf : u.achievements.find? (fun a => a.name == n) with
    | some a => rfl
    | none =>
      exfalso
      have h1 : (u.achievements.find? (fun a => a.name == n)).isSome := by
        rw [List.find?_isSome]
        simpa [List.any_eq_true] using hdup
      rw [hf] at h1
      simp at h1
  · intro u n ds ic p t hfresh
    simp only [addUserAchievement]
    cases hf : u.achievements.find? (fun a => a.name == n) with
    | none => rfl
    | some a =>
      exfalso
      have hmem := List.mem_of_find?_eq_some hf
      have hp := List.find?_some hf
      rw [List.any_eq_false] at hfresh
      exact absurd hp (by simpa using hfresh a hmem)

/-- Witness for C5: the record-scope duplicate part applied to the completed
scenario record, which already holds "Lesson Completed". -/
theorem addAchievement_scopes_witness :
    rec80.achievements.any (fun a => a.name == "Lesson Completed") = true ∧
    addAchievement rec80 "Lesson Completed" AchType.completion 5 = (rec80, false) := by
  have h : rec80.achievements.any (fun a => a.name == "Lesson Completed") = true := by
    simp [rec80, freshRecord]
  exact ⟨h, addAchievement_scopes.1 rec80 "Lesson Completed" .completion 5 h⟩

/-- Claim C6: a `recordProgress` call with negative watch time or
non-positive total duration is rejected with the `InvalidInput` error of the
validator (`'Invalid progress data'`) and the record is not updated. -/
theorem recordProgress_rejects_invalid (r : Progress) (w d p : ℚ) (t : ℕ)
    (h : w < 0 ∨ d ≤ 0) :
    recordProgress r w d p t = .error "Invalid progress data" := by
  simp only [recordProgress, validateProgress]
  rw [if_pos h]

/-- Witness for C6: negative watch time on a fresh record. -/
theorem recordProgress_rejects_invalid_witness :
    ((-1 : ℚ) < 0 ∨ (100 : ℚ) ≤ 0) ∧
    recordProgress freshRecord (-1) 100 0 5 = .error "Invalid progress data" :=
  ⟨Or.inl (by norm_num),
    recordProgress_rejects_invalid freshRecord (-1) 100 0 5 (Or.inl (by norm_num))⟩

/-- Claim C7 (the code lacks the guard the spec mandates): with one session
already open, `startWatchSession` does not fail — it appends a second open
session, leaving two entries without `endTime`, and returns the new open
session. -/
theorem startWatchSession_no_guard :
    ((startWatchSession freshRecord 0 10).1.watchSessions.filter
        (fun s => s.endTime.isNone)).length = 1 ∧
    ((startWatchSession (startWatchSession freshRecord 0 10).1 5 20).1.watchSessions.filter
        (fun s => s.endTime.isNone)).length = 2 ∧
    (startWatchSession (startWatchSession freshRecord 0 10).1 5 20).2
      = ⟨20, none, none, 5, 5, false⟩ := by
  refine ⟨?_, ?_, ?_⟩ <;> simp [startWatchSession, freshRecord]

/-- Claim C9: `updateStreak` compares now to `lastActiveDate` in whole
elapsed days of the absolute millisecond difference — an elapsed-day count of
0 leaves `streakDays` unchanged, 1 increments it, and more than 1 resets it
to 1. -/
theorem updateStreak_spec :
    ∀ (u : User) (today : ℕ),
      (((today : ℤ) - (u.lastActiveDate : ℤ)).natAbs / 86400000 = 0 →
        (updateStreak u today).streakDays = u.streakDays) ∧
      (((today : ℤ) - (u.lastActiveDate : ℤ)).natAbs / 86400000 = 1 →
        (updateStreak u today).streakDays = u.streakDays + 1) ∧
      (1 < ((today : ℤ) - (u.lastActiveDate : ℤ)).natAbs / 86400000 →
        (updateStreak u today).streakDays = 1) := by
  intro u today
  refine ⟨?_, ?_, ?_⟩
  · intro h
    simp [updateStreak, h]
  · intro h
    simp [updateStreak, h]
  · intro h
    have h1 : ¬(((today : ℤ) - (u.lastActiveDate : ℤ)).natAbs / 86400000 = 1) := by omega
    simp [updateStreak, h1, h]

/-- Witness for C9: a user last active at epoch, next active exactly one day
later, moves from a 4-day to a 5-day streak. -/
theorem updateStreak_spec_witness :
    (((86400000 : ℕ) : ℤ) - (((⟨0, 1, 4, 0, []⟩ : User).lastActiveDate : ℕ) : ℤ)).natAbs
        / 86400000 = 1 ∧
    (updateStreak ⟨0, 1, 4, 0, []⟩ 86400000).streakDays = 4 + 1 := by
  have h : (((86400000 : ℕ) : ℤ) - (((⟨0, 1, 4, 0, []⟩ : User).lastActiveDate : ℕ) : ℤ)).natAbs
      / 86400000 = 1 := by decide
  exact ⟨h, (updateStreak_spec ⟨0, 1, 4, 0, []⟩ 86400000).2.1 h⟩

/-- Counterexample to C10 as stated: crossing 1000 points in one
`addPoints` call leaves the level at 1 because the computed level 11 exceeds
the cap and the update is skipped — the level does not equal
`min(10, floor(totalPoints/100)+1) = 10`. -/
theorem addPoints_level_cap_cex :
    (addPoints ⟨0, 1, 0, 0, []⟩ 1000).1.level = 1 ∧
    min 10 (⌊(addPoints ⟨0, 1, 0, 0, []⟩ 1000).1.totalPoints / 100⌋ + 1) = 10 ∧
    (addPoints ⟨0, 1, 0, 0, []⟩ 1000).1.level
      ≠ min 10 (⌊(addPoints ⟨0, 1, 0, 0, []⟩ 1000).1.totalPoints / 100⌋ + 1) := by
  norm_num [addPoints, updateLevel]

/-- Claim C10 (amended): `addPoints` adds the points, and the level adopts
`floor(totalPoints/100)+1` only when that value exceeds the current level and
is at most 10, otherwise it is unchanged (the cap is enforced by skipping the
update, not by clamping to 10); the level never decreases and the call
returns true exactly when the level changed. -/
theorem addPoints_level_spec :
    ∀ (u : User) (p : ℚ),
      (addPoints u p).1.totalPoints = u.totalPoints + p ∧
      (addPoints u p).1.level =
        (if u.level < ⌊(u.totalPoints + p) / 100⌋ + 1 ∧ ⌊(u.totalPoints + p) / 100⌋ + 1 ≤ 10
         then ⌊(u.totalPoints + p) / 100⌋ + 1 else u.level) ∧
      u.level ≤ (addPoints u p).1.level ∧
      ((addPoints u p).2 = true ↔ (addPoints u p).1.level ≠ u.level) := by
  intro u p
  simp only [addPoints, updateLevel]
  split_ifs with h
  · exact ⟨rfl, rfl, h.1.le, by simp [h.1.ne']⟩
  · exact ⟨rfl, rfl, le_refl _, by simp⟩

lemma weeklyMatched_filter_day (today d : ℤ) (hd : today - 7 ≤ d)
    (rs : List CompletedSlice) :
    (weeklyMatched today rs).filter (fun r => r.completedDay == d)
      = rs.filter (fun r => r.isCompleted && (r.completedDay == d)) := by
  rw [weeklyMatched, List.filter_filter]
  refine List.filter_congr ?_
  intro a _
  by_cases h : a.completedDay = d
  · simp [h]
    intro _
    omega
  · rw [beq_eq_false_iff_ne.mpr h]
    simp

/-- Claim C8: `getWeeklyProgress` always returns the 7 consecutive calendar
days `today − 6 … today`, oldest to newest; each entry counts the completed
records whose `completedAt` day is that date and sums their points, with
zero-filled entries for days without completions. -/
theorem getWeeklyProgress_spec (today : ℤ) (rs : List CompletedSlice) :
    getWeeklyProgress today rs
      = (List.range 7).map (fun (j : ℕ) =>
          { date := today - 6 + (j : ℤ),
            lessonsCompleted := (rs.filter (fun r =>
              r.isCompleted && (r.completedDay == today - 6 + (j : ℤ)))).length,
            pointsEarned := ((rs.filter (fun r =>
              r.isCompleted && (r.completedDay == today - 6 + (j : ℤ)))).map
                (fun r => r.pointsEarned)).sum }) ∧
    (getWeeklyProgress today rs).length = 7 ∧
    (getWeeklyProgress today rs).map (fun e => e.date)
      = [today - 6, today - 5, today - 4, today - 3, today - 2, today - 1, today] := by
  have hmain : getWeeklyProgress today rs
      = (List.range 7).map (fun (j : ℕ) =>
          { date := today - 6 + (j : ℤ),
            lessonsCompleted := (rs.filter (fun r =>
              r.isCompleted && (r.completedDay == today - 6 + (j : ℤ)))).length,
            pointsEarned := ((rs.filter (fun r =>
              r.isCompleted && (r.completedDay == today - 6 + (j : ℤ)))).map
                (fun r => r.pointsEarned)).sum }) := by
    simp only [getWeeklyProgress]
    refine List.map_congr_left ?_
    intro j hj
    have hd : today - 7 ≤ today - 6 + (j : ℤ) := by omega
    simp only [dayGroup, weeklyMatched_filter_day today _ hd rs]
    by_cases he : (rs.filter (fun r =>
        r.isCompleted && (r.completedDay == today - 6 + (j : ℤ)))).isEmpty
    · have hnil := List.isEmpty_iff.mp he
      simp [he, hnil]
    · simp [he]
  refine ⟨hmain, ?_, ?_⟩
  · rw [hmain]
    simp
  · rw [hmain, List.map_map]
    have hrange : List.range 7 = [0, 1, 2, 3, 4, 5, 6] := rfl
    rw [hrange]
    simp only [List.map_cons, List.map_nil, Function.comp]
    norm_num
    omega

end ChildStudy
